import Mathlib

/-!
Shallow embedding of the Boss Encyclopedia backend (`main.py`) over a
Mongo-like document store.  The store (`database.py`: `create_document`,
`find_one`, `count_documents`, `update_one`) is modelled as explicit state
passing over four in-memory collections with a generated-id counter.
Machine-level details abstracted:
* A BSON `ObjectId` is modelled by a `Nat`; an externally supplied raw id
  string is a `RawId`: either the string form of some ObjectId (`oidStr n`,
  with `str(ObjectId(s))` the identity on it) or a string that fails to
  parse (`other s`).
* `HttpUrl` values and their `str()` form are plain strings; pydantic URL
  validation is modelled by `isValidHttpUrl` (an accepted URL carries an
  http scheme, hence is non-empty).
* The `db is None` (HTTP 500, store not configured) guard present on every
  route is outside the model: operations model the connected path.
-/

/-- A raw reference-id string as supplied by clients or stored in documents:
either the (canonical) string form of ObjectId `n`, or a string that does not
parse as an ObjectId. -/
inductive RawId where
  | oidStr : Nat → RawId
  | other : String → RawId
deriving DecidableEq

/-- `ObjectId(s)`: parsing a raw id string, `None` modelling the raised
`InvalidId` exception. -/
def parseObjectId : RawId → Option Nat
  | .oidStr n => some n
  | .other _ => none

/-- Python truthiness of an `Optional[str]` field (`if x:`): `None` and the
empty string are falsy. -/
def truthy : Option String → Bool
  | none => false
  | some s => s != ""

/-- Python `x or d` on an `Optional[str]`: falls through to the default on
`None` and on the empty string. -/
def pyOrStr (o : Option String) (d : String) : String :=
  match o with
  | none => d
  | some s => if s == "" then d else s

/-- Python `str.startswith`, evaluated over the underlying character lists. -/
def strStartsWith (s p : String) : Bool :=
  p.data.isPrefixOf s.data

/-- Models pydantic `HttpUrl` validation: an accepted value starts with an
http(s) scheme. -/
def isValidHttpUrl (s : String) : Bool :=
  strStartsWith s "http://" || strStartsWith s "https://"

/-- A stored document of the `game` collection. -/
structure GameDoc where
  oid : Nat
  title : String
  platform : Option String
  cover_image : Option String
  description : Option String
deriving DecidableEq

/-- A stored document of the `boss` collection; `game_id` is stored as the raw
string the writer supplied. -/
structure BossDoc where
  oid : Nat
  game_id : RawId
  name : String
  image : Option String
  summary : Option String
  difficulty : Option String
deriving DecidableEq

/-- A stored document of the `strategy` collection. -/
structure StrategyDoc where
  oid : Nat
  boss_id : RawId
  title : String
  steps : List String
  recommended_level : Option String
  video_url : Option String
deriving DecidableEq

/-- A stored document of the `ingest_queue` collection. -/
structure QueueItemDoc where
  oid : Nat
  source : String
  game_title : String
  boss_name : String
  strategy_title : Option String
  steps : List String
  recommended_level : Option String
  video_url : Option String
  image : Option String
  summary : Option String
  difficulty : Option String
  status : String
deriving DecidableEq

/-- The document store: the four collections plus the generator of fresh
document ids. -/
structure DB where
  games : List GameDoc
  bosses : List BossDoc
  strategies : List StrategyDoc
  queue : List QueueItemDoc
  nextId : Nat
deriving DecidableEq

/-- The empty store. -/
def DB.empty : DB := ⟨[], [], [], [], 0⟩

/-- Request model `GameCreate`. -/
structure GameCreate where
  title : String
  platform : Option String
  cover_image : Option String
  description : Option String
deriving DecidableEq

/-- Request model `BossCreate`. -/
structure BossCreate where
  game_id : RawId
  name : String
  image : Option String
  summary : Option String
  difficulty : Option String
deriving DecidableEq

/-- Request model `StrategyCreate`. -/
structure StrategyCreate where
  boss_id : RawId
  title : String
  steps : List String
  recommended_level : Option String
  video_url : Option String
deriving DecidableEq

/-- Request model `YouTubeIngest`; `video_url` is a required `HttpUrl`. -/
structure YouTubeIngest where
  game_title : String
  boss_name : String
  video_url : String
  strategy_title : Option String
  steps : List String
  recommended_level : Option String
  image : Option String
  summary : Option String
  difficulty : Option String
deriving DecidableEq

/-- Request model `BulkBoss`. -/
structure BulkBoss where
  name : String
  image : Option String
  summary : Option String
  difficulty : Option String
  strategies : List StrategyCreate
deriving DecidableEq

/-- Request model `BulkIngest`. -/
structure BulkIngest where
  game_title : String
  platform : Option String
  cover_image : Option String
  description : Option String
  bosses : List BulkBoss
deriving DecidableEq

/-- Request model `QueueItem`; pydantic gives `status` the default
`"pending"`, but the field is part of the request model and a client may
supply any string for it. -/
structure QueueItem where
  source : String
  game_title : String
  boss_name : String
  strategy_title : Option String
  steps : List String
  recommended_level : Option String
  video_url : Option String
  image : Option String
  summary : Option String
  difficulty : Option String
  status : String := "pending"
deriving DecidableEq

/-- Errors raised via `HTTPException`: 400 (client input) and 404. -/
inductive HError where
  | badRequest : String → HError
  | notFound : String → HError
deriving DecidableEq

/-- `db["game"].count_documents({"_id": gid}, limit=1) > 0`. -/
def gameExists (db : DB) (gid : Nat) : Bool :=
  db.games.any (fun g => g.oid == gid)

/-- `db["boss"].count_documents({"_id": bid}, limit=1) > 0`. -/
def bossExists (db : DB) (bid : Nat) : Bool :=
  db.bosses.any (fun b => b.oid == bid)

/-- `db["game"].find_one({"title": t})`. -/
def findGameByTitle (db : DB) (t : String) : Option GameDoc :=
  db.games.find? (fun g => g.title == t)

/-- `db["boss"].find_one({"name": n, "game_id": gid})`. -/
def findBossByNameGame (db : DB) (n : String) (gid : RawId) : Option BossDoc :=
  db.bosses.find? (fun b => b.name == n && b.game_id == gid)

/-- `db["strategy"].find_one({"boss_id": bid, "video_url": v})`. -/
def findStrategyDup (db : DB) (bid : RawId) (v : String) : Option StrategyDoc :=
  db.strategies.find? (fun s => s.boss_id == bid && s.video_url == some v)

/-- `db["strategy"].count_documents({"boss_id": bid, "video_url": v}, limit=1) > 0`. -/
def strategyDupCountPos (db : DB) (bid : RawId) (v : String) : Bool :=
  db.strategies.any (fun s => s.boss_id == bid && s.video_url == some v)

/-- `create_document("game", g.model_dump())` followed by the refetch of the
created document by its generated id. -/
def insertGame (db : DB) (g : GameCreate) : DB × GameDoc :=
  let doc : GameDoc := ⟨db.nextId, g.title, g.platform, g.cover_image, g.description⟩
  ({ db with games := db.games ++ [doc], nextId := db.nextId + 1 }, doc)

/-- `create_document("boss", b.model_dump())` plus refetch. -/
def insertBoss (db : DB) (b : BossCreate) : DB × BossDoc :=
  let doc : BossDoc := ⟨db.nextId, b.game_id, b.name, b.image, b.summary, b.difficulty⟩
  ({ db with bosses := db.bosses ++ [doc], nextId := db.nextId + 1 }, doc)

/-- The strategy document materialized from a `StrategyCreate` dump with the
store's next generated id. -/
def newStrategyDoc (db : DB) (s : StrategyCreate) : StrategyDoc :=
  ⟨db.nextId, s.boss_id, s.title, s.steps, s.recommended_level, s.video_url⟩

/-- `create_document("strategy", s.model_dump())`. -/
def insertStrategy (db : DB) (s : StrategyCreate) : DB :=
  { db with strategies := db.strategies ++ [newStrategyDoc db s],
            nextId := db.nextId + 1 }

/-- `create_document("ingest_queue", item.model_dump())` plus refetch; note
the stored `status` is whatever the request carried. -/
def insertQueue (db : DB) (item : QueueItem) : DB × QueueItemDoc :=
  let doc : QueueItemDoc :=
    ⟨db.nextId, item.source, item.game_title, item.boss_name, item.strategy_title,
      item.steps, item.recommended_level, item.video_url, item.image, item.summary,
      item.difficulty, item.status⟩
  ({ db with queue := db.queue ++ [doc], nextId := db.nextId + 1 }, doc)

/-- `update_one({"_id": oid}, {"$set": {"status": st}})` on `ingest_queue`;
generated oids are unique, so updating every match coincides with Mongo's
update of the first match. -/
def setQueueStatus (db : DB) (oid : Nat) (st : String) : DB :=
  { db with queue := db.queue.map (fun q => if q.oid == oid then { q with status := st } else q) }

/-- The resolve-or-create block for a Game, repeated verbatim in
`ingest_youtube`, `ingest_bulk` and `mod_approve`: look up by exact title; on
a miss insert the caller-shaped `GameCreate` and refetch. -/
def ensureGameByTitle (db : DB) (t : String) (gc : GameCreate) : DB × GameDoc :=
  match findGameByTitle db t with
  | some g => (db, g)
  | none => insertGame db gc

/-- The resolve-or-create block for a Boss, repeated verbatim in
`ingest_youtube`, `ingest_bulk` and `mod_approve`: look up by exact
(name, game_id); on a miss insert the caller-shaped `BossCreate`. -/
def ensureBoss (db : DB) (n : String) (gid : RawId) (bc : BossCreate) : DB × BossDoc :=
  match findBossByNameGame db n gid with
  | some b => (db, b)
  | none => insertBoss db bc

/-- The find-or-insert block for a Strategy deduped on (`s.boss_id`, `v`),
as inlined in `ingest_youtube` and `mod_approve`. -/
def dedupeInsertStrategy (db : DB) (s : StrategyCreate) (v : String) : DB × StrategyDoc :=
  match findStrategyDup db s.boss_id v with
  | some existing => (db, existing)
  | none => (insertStrategy db s, newStrategyDoc db s)

/-- `POST /api/bosses` (`create_boss`): parse `game_id` (400 on failure),
check the Game exists (404 otherwise), then insert. -/
def create_boss (db : DB) (boss : BossCreate) : Except HError (DB × BossDoc) :=
  match parseObjectId boss.game_id with
  | none => .error (.badRequest "Invalid game_id")
  | some gid =>
    if gameExists db gid then .ok (insertBoss db boss)
    else .error (.notFound "Game not found")

/-- `POST /api/strategies` (`create_strategy`): parse `boss_id` (400), check
the Boss exists (404), dedupe on (`boss_id`, `video_url`) when `video_url` is
truthy, else insert. -/
def create_strategy (db : DB) (s : StrategyCreate) : Except HError (DB × StrategyDoc) :=
  match parseObjectId s.boss_id with
  | none => .error (.badRequest "Invalid boss_id")
  | some bid =>
    if bossExists db bid then
      match s.video_url with
      | some v =>
        if v == "" then .ok (insertStrategy db s, newStrategyDoc db s)
        else
          match findStrategyDup db s.boss_id v with
          | some existing => .ok (db, existing)
          | none => .ok (insertStrategy db s, newStrategyDoc db s)
      | none => .ok (insertStrategy db s, newStrategyDoc db s)
    else .error (.notFound "Boss not found")

/-- The hardcoded per-boss steps and video of the demo seed (the
`if/elif/else` on the boss name in `ingest_demo`). -/
def demoStepsVideo (name : String) : List String × String :=
  if strStartsWith name "Margit" then
    (["Summon Spirit Ashes to draw aggro.",
      "Bait the dagger throw then roll forward.",
      "Punish slow hammer slam with 1-2 hits."],
     "https://www.youtube.com/embed/IfZk96F6eAQ")
  else if strStartsWith name "Godrick" then
    (["Stay mid-range to bait whirlwind.",
      "In phase 2, avoid dragon flame then circle to his left.",
      "Use bleed or frost for faster stagger."],
     "https://www.youtube.com/embed/Goe7bD8Jo1Q")
  else
    (["Use lightweight roll setup for iframes.",
      "When she hops, sprint away to dodge Waterfowl Dance.",
      "Inflict Scarlet Rot or Bleed to wear her down."],
     "https://www.youtube.com/embed/Hgfbm9lY0AU")

/-- One iteration of the demo-seed loop: insert the boss, then insert its
strategy unless a (`boss_id`, `video_url`) duplicate already exists. -/
def demoSeedBoss (db : DB) (gid : Nat) (nm img sm diff : String) : DB :=
  let p := insertBoss db ⟨.oidStr gid, nm, some img, some sm, some diff⟩
  let sv := demoStepsVideo nm
  let sdoc : StrategyCreate :=
    ⟨.oidStr p.2.oid, "How to beat " ++ nm, sv.1, some "80+", some sv.2⟩
  if strategyDupCountPos p.1 sdoc.boss_id sv.2 then p.1
  else insertStrategy p.1 sdoc

/-- `POST /api/ingest/demo` (`ingest_demo`): if a Game titled "Elden Ring"
exists, return it and do nothing; else seed the game, its three bosses and
one strategy each (the loop over the literal boss list, unrolled). -/
def ingest_demo (db : DB) : DB × GameDoc :=
  match findGameByTitle db "Elden Ring" with
  | some g => (db, g)
  | none =>
    let p := insertGame db
      ⟨"Elden Ring", some "PC/PS5/Xbox",
        some "https://images.igdb.com/igdb/image/upload/t_cover_big/co4jni.jpg",
        some "Open-world action RPG by FromSoftware featuring challenging boss fights."⟩
    let db2 := demoSeedBoss p.1 p.2.oid "Margit, the Fell Omen"
      "https://static.wikia.nocookie.net/eldenring/images/4/4b/Margit_the_Fell_Omen.jpg"
      "Gatekeeper of Stormveil Castle with punishing combos and holy daggers." "Hard"
    let db3 := demoSeedBoss db2 p.2.oid "Godrick the Grafted"
      "https://static.wikia.nocookie.net/eldenring/images/4/41/Godrick_the_Grafted.jpg"
      "Demigod who commands storm and grafted limbs." "Hard"
    let db4 := demoSeedBoss db3 p.2.oid "Malenia, Blade of Miquella"
      "https://static.wikia.nocookie.net/eldenring/images/a/aa/Malenia_Blade_of_Miquella.jpg"
      "Infamous duel with lifesteal and Waterfowl Dance." "Legendary"
    (db4, p.2)

/-- `POST /api/ingest/youtube` (`ingest_youtube`): resolve-or-create the Game
by title (title only when creating), then the Boss by (name, game_id), then
the Strategy deduped on (`boss_id`, `str(video_url)`).  `data.steps or []`
equals `data.steps`. -/
def ingest_youtube (db : DB) (data : YouTubeIngest) : DB × StrategyDoc :=
  let pg := ensureGameByTitle db data.game_title ⟨data.game_title, none, none, none⟩
  let pb := ensureBoss pg.1 data.boss_name (RawId.oidStr pg.2.oid)
    ⟨RawId.oidStr pg.2.oid, data.boss_name, data.image, data.summary, data.difficulty⟩
  dedupeInsertStrategy pb.1
    ⟨.oidStr pb.2.oid,
      pyOrStr data.strategy_title ("Video Guide: " ++ data.boss_name),
      data.steps, data.recommended_level, some data.video_url⟩
    data.video_url

/-- The per-strategy body of the bulk-ingest loop: the `try` branch parses the
declared `boss_id` (nothing more — no existence check), skips on a
(`boss_id`, `video_url`) duplicate when `video_url` is truthy, and inserts the
item as dumped; the `except` branch (parse failure) relinks the item to the
just-resolved boss, with the same dedupe against that boss's id. -/
def bulkStrategyStep (db : DB) (boss : BossDoc) (s : StrategyCreate) : DB :=
  match parseObjectId s.boss_id with
  | some _ =>
    match s.video_url with
    | some v =>
      if v != "" && strategyDupCountPos db s.boss_id v then db
      else insertStrategy db s
    | none => insertStrategy db s
  | none =>
    let link := RawId.oidStr boss.oid
    match s.video_url with
    | some v =>
      if v != "" && strategyDupCountPos db link v then db
      else insertStrategy db { s with boss_id := link }
    | none => insertStrategy db { s with boss_id := link }

/-- The per-boss body of the bulk-ingest loop: resolve-or-create the Boss by
(name, game_id), then run every strategy item through `bulkStrategyStep`. -/
def bulkBossStep (db : DB) (game_id_str : RawId) (b : BulkBoss) : DB × BossDoc :=
  let pb := ensureBoss db b.name game_id_str
    ⟨game_id_str, b.name, b.image, b.summary, b.difficulty⟩
  (b.strategies.foldl (fun d s => bulkStrategyStep d pb.2 s) pb.1, pb.2)

/-- `POST /api/ingest/bulk` (`ingest_bulk`): resolve-or-create the Game by
title (with the supplied fields when creating), then fold the per-boss step
over the payload, accumulating the resolved bosses in order. -/
def ingest_bulk (db : DB) (payload : BulkIngest) : DB × GameDoc × List BossDoc :=
  let pg := ensureGameByTitle db payload.game_title
    ⟨payload.game_title, payload.platform, payload.cover_image, payload.description⟩
  let r := payload.bosses.foldl
    (fun (acc : DB × List BossDoc) b =>
      let p := bulkBossStep acc.1 (RawId.oidStr pg.2.oid) b
      (p.1, acc.2 ++ [p.2]))
    (pg.1, [])
  (r.1, pg.2, r.2)

/-- The submission dedupe filter of `mod_submit`: source, game_title and
boss_name always; `video_url` only when the submitted value is truthy. -/
def queueMatch (item : QueueItem) (q : QueueItemDoc) : Bool :=
  q.source == item.source && q.game_title == item.game_title &&
  q.boss_name == item.boss_name &&
  (if truthy item.video_url then q.video_url == item.video_url else true)

/-- `POST /api/mod/submit` (`mod_submit`): return the first stored queue
document matching the dedupe filter unchanged, or insert the dumped item. -/
def mod_submit (db : DB) (item : QueueItem) : DB × QueueItemDoc :=
  match db.queue.find? (queueMatch item) with
  | some existing => (db, existing)
  | none => insertQueue db item

/-- The ingestion phase of `mod_approve`: resolve-or-create Game and Boss from
the queue item's fields, then create the Strategy when the item's `video_url`
is truthy, deduped on the resolved boss id. -/
def approveIngest (db : DB) (item : QueueItemDoc) : DB :=
  let pg := ensureGameByTitle db item.game_title ⟨item.game_title, none, none, none⟩
  let pb := ensureBoss pg.1 item.boss_name (RawId.oidStr pg.2.oid)
    ⟨RawId.oidStr pg.2.oid, item.boss_name, item.image, item.summary, item.difficulty⟩
  match item.video_url with
  | none => pb.1
  | some vid =>
    if vid == "" then pb.1
    else
      (dedupeInsertStrategy pb.1
        ⟨RawId.oidStr pb.2.oid,
          pyOrStr item.strategy_title ("Guide: " ++ item.boss_name),
          item.steps, item.recommended_level, some vid⟩ vid).1

/-- `POST /api/mod/approve/{item_id}` (`mod_approve`): parse the id (400),
fetch the item (404), run `approveIngest` on its fields, then unconditionally
set the item's status to `"approved"` and return the refetched item.  The
final `none` branch mirrors the refetch and is unreachable once the first
lookup succeeded. -/
def mod_approve (db : DB) (item_id : RawId) : Except HError (DB × QueueItemDoc) :=
  match parseObjectId item_id with
  | none => .error (.badRequest "Invalid id")
  | some oid =>
    match db.queue.find? (fun q => q.oid == oid) with
    | none => .error (.notFound "Item not found")
    | some item =>
      let db4 := setQueueStatus (approveIngest db item) oid "approved"
      match db4.queue.find? (fun q => q.oid == oid) with
      | some it => .ok (db4, it)
      | none => .error (.notFound "Item not found")

/-- `POST /api/mod/reject/{item_id}` (`mod_reject`): parse the id (400),
update the status to `"rejected"` unconditionally, 404 when nothing matched,
return the refetched item. -/
def mod_reject (db : DB) (item_id : RawId) : Except HError (DB × QueueItemDoc) :=
  match parseObjectId item_id with
  | none => .error (.badRequest "Invalid id")
  | some oid =>
    if db.queue.any (fun q => q.oid == oid) then
      let db' := setQueueStatus db oid "rejected"
      match db'.queue.find? (fun q => q.oid == oid) with
      | some it => .ok (db', it)
      | none => .error (.notFound "Item not found")
    else .error (.notFound "Item not found")

/-- A stored Boss whose `game_id` parses and references an extant Game. -/
def bossRefOk (db : DB) (b : BossDoc) : Bool :=
  match parseObjectId b.game_id with
  | some gid => gameExists db gid
  | none => false

/-- A stored Strategy whose `boss_id` parses and references an extant Boss. -/
def strategyRefOk (db : DB) (s : StrategyDoc) : Bool :=
  match parseObjectId s.boss_id with
  | some bid => bossExists db bid
  | none => false

/-- Referential integrity of the whole store: every Boss resolves to a Game
and every Strategy resolves to a Boss. -/
def refIntact (db : DB) : Bool :=
  db.bosses.all (bossRefOk db) && db.strategies.all (strategyRefOk db)

/-- Number of stored games carrying a given title. -/
def countGamesTitled (db : DB) (t : String) : Nat :=
  (db.games.filter (fun g => g.title == t)).length

/-- The stored bosses whose `game_id` is the string form of `gid`. -/
def bossesOfGame (db : DB) (gid : Nat) : List BossDoc :=
  db.bosses.filter (fun b => b.game_id == RawId.oidStr gid)

/-- The stored strategies whose `boss_id` is the string form of `bid`. -/
def strategiesOfBoss (db : DB) (bid : Nat) : List StrategyDoc :=
  db.strategies.filter (fun s => s.boss_id == RawId.oidStr bid)

/-! ## Helper lemmas shared by the claim theorems -/

/-- Store growth: old games and bosses stay present. -/
structure DBLe (db db' : DB) : Prop where
  gamesLe : ∀ g ∈ db.games, g ∈ db'.games
  bossesLe : ∀ b ∈ db.bosses, b ∈ db'.bosses

theorem DBLe.refl (db : DB) : DBLe db db := ⟨fun _ h => h, fun _ h => h⟩

theorem DBLe.trans {a b c : DB} (h1 : DBLe a b) (h2 : DBLe b c) : DBLe a c :=
  ⟨fun g hg => h2.gamesLe g (h1.gamesLe g hg), fun x hx => h2.bossesLe x (h1.bossesLe x hx)⟩

@[simp] theorem insertGame_bosses (db : DB) (g : GameCreate) :
    (insertGame db g).1.bosses = db.bosses := rfl

@[simp] theorem insertGame_strategies (db : DB) (g : GameCreate) :
    (insertGame db g).1.strategies = db.strategies := rfl

@[simp] theorem insertGame_queue (db : DB) (g : GameCreate) :
    (insertGame db g).1.queue = db.queue := rfl

@[simp] theorem insertBoss_games (db : DB) (b : BossCreate) :
    (insertBoss db b).1.games = db.games := rfl

@[simp] theorem insertBoss_strategies (db : DB) (b : BossCreate) :
    (insertBoss db b).1.strategies = db.strategies := rfl

@[simp] theorem insertBoss_queue (db : DB) (b : BossCreate) :
    (insertBoss db b).1.queue = db.queue := rfl

@[simp] theorem insertStrategy_games (db : DB) (s : StrategyCreate) :
    (insertStrategy db s).games = db.games := rfl

@[simp] theorem insertStrategy_bosses (db : DB) (s : StrategyCreate) :
    (insertStrategy db s).bosses = db.bosses := rfl

@[simp] theorem insertStrategy_queue (db : DB) (s : StrategyCreate) :
    (insertStrategy db s).queue = db.queue := rfl

@[simp] theorem insertStrategy_strategies (db : DB) (s : StrategyCreate) :
    (insertStrategy db s).strategies = db.strategies ++ [newStrategyDoc db s] := rfl

@[simp] theorem setQueueStatus_games (db : DB) (oid : Nat) (st : String) :
    (setQueueStatus db oid st).games = db.games := rfl

@[simp] theorem setQueueStatus_bosses (db : DB) (oid : Nat) (st : String) :
    (setQueueStatus db oid st).bosses = db.bosses := rfl

@[simp] theorem setQueueStatus_strategies (db : DB) (oid : Nat) (st : String) :
    (setQueueStatus db oid st).strategies = db.strategies := rfl

theorem insertGame_le (db : DB) (g : GameCreate) : DBLe db (insertGame db g).1 :=
  ⟨fun x hx => by simp [insertGame]; exact Or.inl hx, fun _ hx => hx⟩

theorem insertBoss_le (db : DB) (b : BossCreate) : DBLe db (insertBoss db b).1 :=
  ⟨fun _ hx => hx, fun x hx => by simp [insertBoss]; exact Or.inl hx⟩

theorem insertStrategy_le (db : DB) (s : StrategyCreate) : DBLe db (insertStrategy db s) :=
  ⟨fun _ hx => hx, fun _ hx => hx⟩

theorem setQueueStatus_le (db : DB) (oid : Nat) (st : String) :
    DBLe db (setQueueStatus db oid st) :=
  ⟨fun _ hx => hx, fun _ hx => hx⟩

theorem gameExists_of_mem {db : DB} {g : GameDoc} (h : g ∈ db.games) :
    gameExists db g.oid = true :=
  List.any_eq_true.mpr ⟨g, h, by simp⟩

theorem bossExists_of_mem {db : DB} {b : BossDoc} (h : b ∈ db.bosses) :
    bossExists db b.oid = true :=
  List.any_eq_true.mpr ⟨b, h, by simp⟩

theorem gameExists_mono {db db' : DB} (hle : DBLe db db') {gid : Nat}
    (h : gameExists db gid = true) : gameExists db' gid = true := by
  obtain ⟨g, hg, hb⟩ := List.any_eq_true.mp h
  exact List.any_eq_true.mpr ⟨g, hle.gamesLe g hg, hb⟩

theorem bossExists_mono {db db' : DB} (hle : DBLe db db') {bid : Nat}
    (h : bossExists db bid = true) : bossExists db' bid = true := by
  obtain ⟨b, hb, he⟩ := List.any_eq_true.mp h
  exact List.any_eq_true.mpr ⟨b, hle.bossesLe b hb, he⟩

theorem bossRefOk_mono {db db' : DB} (hle : DBLe db db') {b : BossDoc}
    (h : bossRefOk db b = true) : bossRefOk db' b = true := by
  unfold bossRefOk at *
  cases hp : parseObjectId b.game_id with
  | none => simp [hp] at h
  | some gid => simp only [hp] at h ⊢; exact gameExists_mono hle h

theorem strategyRefOk_mono {db db' : DB} (hle : DBLe db db') {s : StrategyDoc}
    (h : strategyRefOk db s = true) : strategyRefOk db' s = true := by
  unfold strategyRefOk at *
  cases hp : parseObjectId s.boss_id with
  | none => simp [hp] at h
  | some bid => simp only [hp] at h ⊢; exact bossExists_mono hle h

theorem refIntact_iff (db : DB) :
    refIntact db = true ↔
      (∀ b ∈ db.bosses, bossRefOk db b = true) ∧
      (∀ s ∈ db.strategies, strategyRefOk db s = true) := by
  unfold refIntact
  rw [Bool.and_eq_true, List.all_eq_true, List.all_eq_true]

/-- Master preservation lemma: a grown store stays referentially intact when
every document of the new store is either an old one or checks out against
the new store. -/
theorem refIntact_extend {db db' : DB} (hle : DBLe db db')
    (hb : ∀ b ∈ db'.bosses, b ∈ db.bosses ∨ bossRefOk db' b = true)
    (hs : ∀ s ∈ db'.strategies, s ∈ db.strategies ∨ strategyRefOk db' s = true)
    (h : refIntact db = true) : refIntact db' = true := by
  obtain ⟨hob, hos⟩ := (refIntact_iff db).mp h
  refine (refIntact_iff db').mpr ⟨fun b hbm => ?_, fun s hsm => ?_⟩
  · rcases hb b hbm with hold | hnew
    · exact bossRefOk_mono hle (hob b hold)
    · exact hnew
  · rcases hs s hsm with hold | hnew
    · exact strategyRefOk_mono hle (hos s hold)
    · exact hnew

theorem refIntact_insertGame {db : DB} (g : GameCreate) (h : refIntact db = true) :
    refIntact (insertGame db g).1 = true := by
  exact refIntact_extend (insertGame_le db g)
    (fun _ hx => Or.inl hx) (fun _ hx => Or.inl hx) h

theorem refIntact_insertBoss {db : DB} {b : BossCreate} {gid : Nat}
    (hp : parseObjectId b.game_id = some gid) (hg : gameExists db gid = true)
    (h : refIntact db = true) : refIntact (insertBoss db b).1 = true := by
  refine refIntact_extend (insertBoss_le db b) (fun x hx => ?_) (fun _ hx => Or.inl hx) h
  simp only [insertBoss, List.mem_append, List.mem_singleton] at hx
  rcases hx with hold | hnew
  · exact Or.inl hold
  · subst hnew
    refine Or.inr ?_
    unfold bossRefOk
    simp only [hp]
    exact gameExists_mono (insertBoss_le db b) hg

theorem refIntact_insertStrategy {db : DB} {s : StrategyCreate} {bid : Nat}
    (hp : parseObjectId s.boss_id = some bid) (hb : bossExists db bid = true)
    (h : refIntact db = true) : refIntact (insertStrategy db s) = true := by
  refine refIntact_extend (insertStrategy_le db s) (fun _ hx => Or.inl hx) (fun x hx => ?_) h
  simp only [insertStrategy_strategies, List.mem_append, List.mem_singleton] at hx
  rcases hx with hold | hnew
  · exact Or.inl hold
  · subst hnew
    refine Or.inr ?_
    unfold strategyRefOk newStrategyDoc
    simp only [hp]
    exact bossExists_mono (insertStrategy_le db s) hb

theorem refIntact_setQueueStatus (db : DB) (oid : Nat) (st : String) :
    refIntact (setQueueStatus db oid st) = refIntact db := rfl

theorem ensureGame_found {db : DB} {t : String} {g : GameDoc} (gc : GameCreate)
    (h : findGameByTitle db t = some g) : ensureGameByTitle db t gc = (db, g) := by
  unfold ensureGameByTitle
  rw [h]

@[simp] theorem ensureGame_bosses (db : DB) (t : String) (gc : GameCreate) :
    (ensureGameByTitle db t gc).1.bosses = db.bosses := by
  unfold ensureGameByTitle
  cases findGameByTitle db t <;> rfl

@[simp] theorem ensureGame_strategies (db : DB) (t : String) (gc : GameCreate) :
    (ensureGameByTitle db t gc).1.strategies = db.strategies := by
  unfold ensureGameByTitle
  cases findGameByTitle db t <;> rfl

@[simp] theorem ensureGame_queue (db : DB) (t : String) (gc : GameCreate) :
    (ensureGameByTitle db t gc).1.queue = db.queue := by
  unfold ensureGameByTitle
  cases findGameByTitle db t <;> rfl

theorem ensureGame_le (db : DB) (t : String) (gc : GameCreate) :
    DBLe db (ensureGameByTitle db t gc).1 := by
  unfold ensureGameByTitle
  cases findGameByTitle db t
  · exact insertGame_le db gc
  · exact DBLe.refl db

theorem ensureGame_mem (db : DB) (t : String) (gc : GameCreate) :
    (ensureGameByTitle db t gc).2 ∈ (ensureGameByTitle db t gc).1.games := by
  unfold ensureGameByTitle
  cases h : findGameByTitle db t with
  | some g => exact List.mem_of_find?_eq_some h
  | none => simp [insertGame]

theorem refIntact_ensureGame {db : DB} (t : String) (gc : GameCreate)
    (h : refIntact db = true) : refIntact (ensureGameByTitle db t gc).1 = true := by
  unfold ensureGameByTitle
  cases findGameByTitle db t
  · exact refIntact_insertGame gc h
  · exact h

theorem ensureBoss_found {db : DB} {n : String} {gid : RawId} {b : BossDoc}
    (bc : BossCreate) (h : findBossByNameGame db n gid = some b) :
    ensureBoss db n gid bc = (db, b) := by
  unfold ensureBoss
  rw [h]

@[simp] theorem ensureBoss_games (db : DB) (n : String) (gid : RawId) (bc : BossCreate) :
    (ensureBoss db n gid bc).1.games = db.games := by
  unfold ensureBoss
  cases findBossByNameGame db n gid <;> rfl

@[simp] theorem ensureBoss_strategies (db : DB) (n : String) (gid : RawId) (bc : BossCreate) :
    (ensureBoss db n gid bc).1.strategies = db.strategies := by
  unfold ensureBoss
  cases findBossByNameGame db n gid <;> rfl

@[simp] theorem ensureBoss_queue (db : DB) (n : String) (gid : RawId) (bc : BossCreate) :
    (ensureBoss db n gid bc).1.queue = db.queue := by
  unfold ensureBoss
  cases findBossByNameGame db n gid <;> rfl

theorem ensureBoss_le (db : DB) (n : String) (gid : RawId) (bc : BossCreate) :
    DBLe db (ensureBoss db n gid bc).1 := by
  unfold ensureBoss
  cases findBossByNameGame db n gid
  · exact insertBoss_le db bc
  · exact DBLe.refl db

theorem ensureBoss_mem (db : DB) (n : String) (gid : RawId) (bc : BossCreate) :
    (ensureBoss db n gid bc).2 ∈ (ensureBoss db n gid bc).1.bosses := by
  unfold ensureBoss
  cases h : findBossByNameGame db n gid with
  | some b => exact List.mem_of_find?_eq_some h
  | none => simp [insertBoss]

theorem refIntact_ensureBoss {db : DB} {n : String} {gid : RawId} {bc : BossCreate}
    {g' : Nat} (hp : parseObjectId bc.game_id = some g') (hg : gameExists db g' = true)
    (h : refIntact db = true) : refIntact (ensureBoss db n gid bc).1 = true := by
  unfold ensureBoss
  cases findBossByNameGame db n gid
  · exact refIntact_insertBoss hp hg h
  · exact h

theorem dedupeInsert_found {db : DB} {s : StrategyCreate} {v : String} {ex : StrategyDoc}
    (h : findStrategyDup db s.boss_id v = some ex) :
    dedupeInsertStrategy db s v = (db, ex) := by
  unfold dedupeInsertStrategy
  rw [h]

theorem dedupeInsert_none {db : DB} {s : StrategyCreate} {v : String}
    (h : findStrategyDup db s.boss_id v = none) :
    dedupeInsertStrategy db s v = (insertStrategy db s, newStrategyDoc db s) := by
  unfold dedupeInsertStrategy
  rw [h]

@[simp] theorem dedupeInsert_games (db : DB) (s : StrategyCreate) (v : String) :
    (dedupeInsertStrategy db s v).1.games = db.games := by
  unfold dedupeInsertStrategy
  cases findStrategyDup db s.boss_id v <;> rfl

@[simp] theorem dedupeInsert_bosses (db : DB) (s : StrategyCreate) (v : String) :
    (dedupeInsertStrategy db s v).1.bosses = db.bosses := by
  unfold dedupeInsertStrategy
  cases findStrategyDup db s.boss_id v <;> rfl

@[simp] theorem dedupeInsert_queue (db : DB) (s : StrategyCreate) (v : String) :
    (dedupeInsertStrategy db s v).1.queue = db.queue := by
  unfold dedupeInsertStrategy
  cases findStrategyDup db s.boss_id v <;> rfl

theorem dedupeInsert_le (db : DB) (s : StrategyCreate) (v : String) :
    DBLe db (dedupeInsertStrategy db s v).1 := by
  unfold dedupeInsertStrategy
  cases findStrategyDup db s.boss_id v
  · exact insertStrategy_le db s
  · exact DBLe.refl db

theorem refIntact_dedupeInsert {db : DB} {s : StrategyCreate} {v : String} {bid : Nat}
    (hp : parseObjectId s.boss_id = some bid) (hb : bossExists db bid = true)
    (h : refIntact db = true) : refIntact (dedupeInsertStrategy db s v).1 = true := by
  unfold dedupeInsertStrategy
  cases findStrategyDup db s.boss_id v
  · exact refIntact_insertStrategy hp hb h
  · exact h

@[simp] theorem bossExists_insertStrategy (db : DB) (s : StrategyCreate) (bid : Nat) :
    bossExists (insertStrategy db s) bid = bossExists db bid := rfl

/-- C7: creating a Boss whose `game_id` does not parse as an ObjectId fails
with the 400 client input error "Invalid game_id"; one whose `game_id` parses
but references no stored Game fails with the distinct 404 "Game not found";
in both cases the operation returns an error, so no document is written
(errors carry no store).  The same two-step check guards a Strategy's
`boss_id` on direct creation. -/
theorem c7_reference_validation (db : DB) :
    (∀ bc : BossCreate, parseObjectId bc.game_id = none →
        create_boss db bc = .error (.badRequest "Invalid game_id")) ∧
    (∀ (bc : BossCreate) (gid : Nat), parseObjectId bc.game_id = some gid →
        gameExists db gid = false →
        create_boss db bc = .error (.notFound "Game not found")) ∧
    (∀ sc : StrategyCreate, parseObjectId sc.boss_id = none →
        create_strategy db sc = .error (.badRequest "Invalid boss_id")) ∧
    (∀ (sc : StrategyCreate) (bid : Nat), parseObjectId sc.boss_id = some bid →
        bossExists db bid = false →
        create_strategy db sc = .error (.notFound "Boss not found")) ∧
    (∀ m m' : String, HError.badRequest m ≠ HError.notFound m') := by
  refine ⟨fun bc h1 => ?_, fun bc gid hp hg => ?_, fun sc h1 => ?_,
    fun sc bid hp hb => ?_, fun m m' h => HError.noConfusion h⟩
  · simp [create_boss, h1]
  · simp [create_boss, hp, hg]
  · simp [create_strategy, h1]
  · simp [create_strategy, hp, hb]

/-- C7 witness at concrete inputs. -/
theorem c7_reference_validation_witness :
    create_boss DB.empty ⟨RawId.other "zzz", "B", none, none, none⟩ =
      .error (.badRequest "Invalid game_id") ∧
    create_boss DB.empty ⟨RawId.oidStr 7, "B", none, none, none⟩ =
      .error (.notFound "Game not found") ∧
    create_strategy DB.empty ⟨RawId.other "w", "T", [], none, none⟩ =
      .error (.badRequest "Invalid boss_id") ∧
    create_strategy DB.empty ⟨RawId.oidStr 3, "T", [], none, none⟩ =
      .error (.notFound "Boss not found") :=
  ⟨(c7_reference_validation DB.empty).1 _ rfl,
   (c7_reference_validation DB.empty).2.1 _ 7 rfl rfl,
   (c7_reference_validation DB.empty).2.2.1 _ rfl,
   (c7_reference_validation DB.empty).2.2.2.1 _ 3 rfl rfl⟩

/-- C1: on direct Strategy creation (past reference validation), a present and
non-empty `video_url` dedupes on the (`boss_id`, `video_url`) pair — an
existing match is returned with the store untouched; an absent `video_url`
always inserts, and two such no-video calls insert two distinct documents,
both present afterwards.  Through single-video ingest, with Game, Boss and a
matching Strategy stored, the existing Strategy is returned and nothing is
inserted. -/
theorem c1_video_dedupe (db : DB) (s : StrategyCreate) :
    (∀ (bid : Nat) (v : String) (ex : StrategyDoc),
        parseObjectId s.boss_id = some bid → bossExists db bid = true →
        s.video_url = some v → v ≠ "" →
        findStrategyDup db s.boss_id v = some ex →
        create_strategy db s = .ok (db, ex)) ∧
    (∀ bid : Nat, parseObjectId s.boss_id = some bid → bossExists db bid = true →
        s.video_url = none →
        create_strategy db s = .ok (insertStrategy db s, newStrategyDoc db s) ∧
        create_strategy (insertStrategy db s) s =
          .ok (insertStrategy (insertStrategy db s) s,
            newStrategyDoc (insertStrategy db s) s) ∧
        newStrategyDoc (insertStrategy db s) s ≠ newStrategyDoc db s ∧
        newStrategyDoc db s ∈ (insertStrategy (insertStrategy db s) s).strategies ∧
        newStrategyDoc (insertStrategy db s) s ∈
          (insertStrategy (insertStrategy db s) s).strategies) ∧
    (∀ (data : YouTubeIngest) (g : GameDoc) (b : BossDoc) (ex : StrategyDoc),
        findGameByTitle db data.game_title = some g →
        findBossByNameGame db data.boss_name (RawId.oidStr g.oid) = some b →
        findStrategyDup db (RawId.oidStr b.oid) data.video_url = some ex →
        ingest_youtube db data = (db, ex)) := by
  refine ⟨?_, ?_, ?_⟩
  · intro bid v ex hp hb hv hne hf
    have hvne : (v == "") = false := by simp [hne]
    simp [create_strategy, hp, hb, hv, hvne, hf]
  · intro bid hp hb hv
    refine ⟨by simp [create_strategy, hp, hb, hv], by simp [create_strategy, hp, hb, hv], ?_, ?_, ?_⟩
    · intro h
      have h2 := congrArg StrategyDoc.oid h
      simp [newStrategyDoc, insertStrategy] at h2
    · simp
    · simp
  · intro data g b ex hg hb2 hex
    simp only [ingest_youtube]
    rw [ensureGame_found _ hg]
    simp only []
    rw [ensureBoss_found _ hb2]
    simp only []
    exact dedupeInsert_found hex

/-- A concrete store with one Boss and one video Strategy, for witnesses. -/
def dbW1 : DB :=
  ⟨[], [⟨0, RawId.oidStr 9, "B", none, none, none⟩],
    [⟨1, RawId.oidStr 0, "T", [], none, some "https://v"⟩], [], 2⟩

/-- A concrete duplicate-video create request, for witnesses. -/
def scW1 : StrategyCreate := ⟨RawId.oidStr 0, "T2", [], none, some "https://v"⟩

/-- A concrete no-video create request, for witnesses. -/
def scW2 : StrategyCreate := ⟨RawId.oidStr 0, "T3", [], none, none⟩

/-- C1 witness: a stored Boss with one matching video Strategy dedupes, and a
no-video create inserts. -/
theorem c1_video_dedupe_witness :
    create_strategy dbW1 scW1 =
      .ok (dbW1, ⟨1, RawId.oidStr 0, "T", [], none, some "https://v"⟩) ∧
    create_strategy dbW1 scW2 =
      .ok (insertStrategy dbW1 scW2, newStrategyDoc dbW1 scW2) :=
  ⟨(c1_video_dedupe dbW1 scW1).1 0 "https://v"
      ⟨1, RawId.oidStr 0, "T", [], none, some "https://v"⟩
      (by decide) (by decide) (by decide) (by decide) (by decide),
   ((c1_video_dedupe dbW1 scW2).2.1 0 (by decide) (by decide) (by decide)).1⟩

/-- C5: seeding the demo catalog twice from a fresh store is idempotent — the
second call changes nothing and returns the pre-existing Game, and the final
store holds exactly one Game titled "Elden Ring", exactly three Bosses under
it, and exactly one Strategy per Boss. -/
theorem c5_demo_idempotent :
    (ingest_demo (ingest_demo DB.empty).1).1 = (ingest_demo DB.empty).1 ∧
    (ingest_demo (ingest_demo DB.empty).1).2 = (ingest_demo DB.empty).2 ∧
    countGamesTitled (ingest_demo (ingest_demo DB.empty).1).1 "Elden Ring" = 1 ∧
    (bossesOfGame (ingest_demo (ingest_demo DB.empty).1).1
      (ingest_demo (ingest_demo DB.empty).1).2.oid).length = 3 ∧
    ((bossesOfGame (ingest_demo (ingest_demo DB.empty).1).1
        (ingest_demo (ingest_demo DB.empty).1).2.oid).all
      (fun b => (strategiesOfBoss (ingest_demo (ingest_demo DB.empty).1).1
        b.oid).length == 1)) = true := by decide

theorem queueMatch_insertQueue (db : DB) (item : QueueItem) :
    queueMatch item (insertQueue db item).2 = true := by
  simp only [queueMatch, insertQueue]
  cases truthy item.video_url <;> simp

/-- C6: moderation submission dedupes on (source, game_title, boss_name) plus
`video_url` when present: if a stored queue document matches the key — in any
status — it is returned unchanged with the store untouched, and resubmitting
the same item after any first submission is the identity on the store. -/
theorem c6_submit_dedupe (db : DB) (item : QueueItem) :
    (∀ ex : QueueItemDoc, db.queue.find? (queueMatch item) = some ex →
        mod_submit db item = (db, ex)) ∧
    mod_submit (mod_submit db item).1 item = mod_submit db item := by
  constructor
  · intro ex h
    simp [mod_submit, h]
  · cases h : db.queue.find? (queueMatch item) with
    | some ex =>
      have h1 : mod_submit db item = (db, ex) := by simp [mod_submit, h]
      rw [h1]
      exact h1
    | none =>
      have h1 : mod_submit db item = insertQueue db item := by simp [mod_submit, h]
      rw [h1]
      have hq : (insertQueue db item).1.queue = db.queue ++ [(insertQueue db item).2] := rfl
      have hfind : (insertQueue db item).1.queue.find? (queueMatch item) =
          some (insertQueue db item).2 := by
        rw [hq, List.find?_append, h]
        simp [List.find?, queueMatch_insertQueue]
      simp [mod_submit, hfind]

/-- A concrete submission, for witnesses. -/
def itemW : QueueItem := ⟨"youtube", "Sekiro", "Genichiro", none, [], none,
  some "https://v1", none, none, none, "pending"⟩

/-- C6 witness: resubmitting `itemW` to the store that already holds it
returns the stored document and inserts nothing. -/
theorem c6_submit_dedupe_witness :
    mod_submit (mod_submit DB.empty itemW).1 itemW = mod_submit DB.empty itemW ∧
    mod_submit (mod_submit DB.empty itemW).1 itemW =
      ((mod_submit DB.empty itemW).1, (mod_submit DB.empty itemW).2) :=
  ⟨(c6_submit_dedupe DB.empty itemW).2,
   by rw [(c6_submit_dedupe DB.empty itemW).2]⟩

/-- C10: every accepted single-video ingest request carries a schema-valid
`video_url`, hence a non-empty one; the resulting Strategy (existing or newly
inserted) carries exactly that `video_url`; and any insert this endpoint makes
is dedupe-guarded — it only happens when no stored Strategy matched the
(resolved boss id, `video_url`) pair, so the unguarded no-video insert branch
is unreachable here. -/
theorem c10_youtube_video_required (db : DB) (data : YouTubeIngest)
    (h : isValidHttpUrl data.video_url = true) :
    ((ingest_youtube db data).2).video_url = some data.video_url ∧
    data.video_url ≠ "" ∧
    (((ingest_youtube db data).2 ∈ db.strategies ∧
        (ingest_youtube db data).1.strategies = db.strategies) ∨
      ((ingest_youtube db data).1.strategies =
          db.strategies ++ [(ingest_youtube db data).2] ∧
        ∀ d ∈ db.strategies,
          ¬(d.boss_id = ((ingest_youtube db data).2).boss_id ∧
            d.video_url = some data.video_url))) := by
  have hne : data.video_url ≠ "" := by
    intro he
    rw [he] at h
    exact absurd h (by decide)
  simp only [ingest_youtube]
  set pg := ensureGameByTitle db data.game_title ⟨data.game_title, none, none, none⟩ with hpg
  set pb := ensureBoss pg.1 data.boss_name (RawId.oidStr pg.2.oid)
    ⟨RawId.oidStr pg.2.oid, data.boss_name, data.image, data.summary, data.difficulty⟩ with hpb
  set sc : StrategyCreate :=
    ⟨RawId.oidStr pb.2.oid,
      pyOrStr data.strategy_title ("Video Guide: " ++ data.boss_name),
      data.steps, data.recommended_level, some data.video_url⟩ with hsc
  have hstr : pb.1.strategies = db.strategies := by
    rw [hpb, ensureBoss_strategies, hpg, ensureGame_strategies]
  cases hf : findStrategyDup pb.1 sc.boss_id data.video_url with
  | some ex =>
    rw [dedupeInsert_found hf]
    have hp := List.find?_some hf
    rw [Bool.and_eq_true] at hp
    have hvu : ex.video_url = some data.video_url := by
      have := hp.2
      rwa [beq_iff_eq] at this
    refine ⟨hvu, hne, Or.inl ⟨?_, by rw [hstr]⟩⟩
    have hmem := List.mem_of_find?_eq_some hf
    rwa [hstr] at hmem
  | none =>
    rw [dedupeInsert_none hf]
    refine ⟨rfl, hne, Or.inr ⟨?_, ?_⟩⟩
    · rw [insertStrategy_strategies, hstr]
    · intro d hd hcon
      have hnm := List.find?_eq_none.mp hf d (by rwa [hstr])
      apply hnm
      rw [Bool.and_eq_true, beq_iff_eq, beq_iff_eq]
      exact ⟨hcon.1, hcon.2⟩

/-- C10 witness at a concrete request against the empty store. -/
theorem c10_youtube_video_required_witness :
    isValidHttpUrl "https://youtu.be/x" = true ∧
    ((ingest_youtube DB.empty
        ⟨"G", "B", "https://youtu.be/x", none, [], none, none, none, none⟩).2).video_url =
      some "https://youtu.be/x" :=
  ⟨by decide,
   (c10_youtube_video_required DB.empty
      ⟨"G", "B", "https://youtu.be/x", none, [], none, none, none, none⟩ (by decide)).1⟩

theorem foldl_invariant {α β : Type} (P : β → Prop) (f : β → α → β) (l : List α)
    (init : β) (h0 : P init) (hstep : ∀ b a, a ∈ l → P b → P (f b a)) :
    P (l.foldl f init) := by
  induction l generalizing init with
  | nil => exact h0
  | cons a as ih =>
    exact ih (f init a) (hstep init a (List.mem_cons_self a as) h0)
      (fun b x hx hb => hstep b x (List.mem_cons_of_mem a hx) hb)

@[simp] theorem bulkStrategyStep_games (d : DB) (boss : BossDoc) (s : StrategyCreate) :
    (bulkStrategyStep d boss s).games = d.games := by
  unfold bulkStrategyStep
  cases parseObjectId s.boss_id <;> cases s.video_url <;>
    simp only [] <;> first | rfl | (split <;> rfl)

@[simp] theorem bulkStrategyStep_bosses (d : DB) (boss : BossDoc) (s : StrategyCreate) :
    (bulkStrategyStep d boss s).bosses = d.bosses := by
  unfold bulkStrategyStep
  cases parseObjectId s.boss_id <;> cases s.video_url <;>
    simp only [] <;> first | rfl | (split <;> rfl)

@[simp] theorem bulkStrategyStep_queue (d : DB) (boss : BossDoc) (s : StrategyCreate) :
    (bulkStrategyStep d boss s).queue = d.queue := by
  unfold bulkStrategyStep
  cases parseObjectId s.boss_id <;> cases s.video_url <;>
    simp only [] <;> first | rfl | (split <;> rfl)

theorem bulkBossStep_games (d : DB) (gid : RawId) (b : BulkBoss) :
    (bulkBossStep d gid b).1.games = d.games := by
  unfold bulkBossStep
  have := foldl_invariant (fun x : DB => x.games = d.games)
    (fun x s => bulkStrategyStep x
      (ensureBoss d b.name gid ⟨gid, b.name, b.image, b.summary, b.difficulty⟩).2 s)
    b.strategies
    (ensureBoss d b.name gid ⟨gid, b.name, b.image, b.summary, b.difficulty⟩).1
    (by simp) (fun x s _ hx => (bulkStrategyStep_games x _ s).trans hx)
  exact this

theorem ingest_bulk_games (db : DB) (payload : BulkIngest) :
    (ingest_bulk db payload).1.games =
      (ensureGameByTitle db payload.game_title
        ⟨payload.game_title, payload.platform, payload.cover_image,
          payload.description⟩).1.games := by
  unfold ingest_bulk
  set pg := ensureGameByTitle db payload.game_title
    ⟨payload.game_title, payload.platform, payload.cover_image, payload.description⟩
  exact foldl_invariant (fun acc : DB × List BossDoc => acc.1.games = pg.1.games)
    _ payload.bosses (pg.1, []) rfl
    (fun acc b _ h => (bulkBossStep_games acc.1 _ b).trans h)

/-- C9: resolve-or-create is first-write-wins — when a Game with the payload's
title already exists, bulk ingest returns it as-is and the game collection is
bit-for-bit unchanged, whatever platform/cover_image/description the payload
supplies; when a Boss with the given (name, game_id) exists, the per-boss bulk
step returns it as-is and the boss collection is unchanged, whatever
image/summary/difficulty were supplied; single-video ingest behaves the same
for its Game and Boss lookups. -/
theorem c9_first_write_wins (db : DB) :
    (∀ (payload : BulkIngest) (g : GameDoc),
        findGameByTitle db payload.game_title = some g →
        (ingest_bulk db payload).2.1 = g ∧ (ingest_bulk db payload).1.games = db.games) ∧
    (∀ (gid : RawId) (b : BulkBoss) (bo : BossDoc),
        findBossByNameGame db b.name gid = some bo →
        (bulkBossStep db gid b).2 = bo ∧ (bulkBossStep db gid b).1.bosses = db.bosses) ∧
    (∀ (data : YouTubeIngest) (g : GameDoc),
        findGameByTitle db data.game_title = some g →
        (ingest_youtube db data).1.games = db.games ∧
        (∀ bo : BossDoc,
          findBossByNameGame db data.boss_name (RawId.oidStr g.oid) = some bo →
          (ingest_youtube db data).1.bosses = db.bosses)) := by
  refine ⟨fun payload g hg => ⟨?_, ?_⟩, fun gid b bo hb => ⟨?_, ?_⟩, fun data g hg => ⟨?_, ?_⟩⟩
  · unfold ingest_bulk
    rw [ensureGame_found _ hg]
  · rw [ingest_bulk_games, ensureGame_found _ hg]
  · unfold bulkBossStep
    rw [ensureBoss_found _ hb]
  · unfold bulkBossStep
    rw [ensureBoss_found _ hb]
    simp only []
    exact foldl_invariant (fun x : DB => x.bosses = db.bosses) _ b.strategies db rfl
      (fun x s _ hx => (bulkStrategyStep_bosses x bo s).trans hx)
  · simp only [ingest_youtube]
    rw [dedupeInsert_games, ensureBoss_games, ensureGame_found _ hg]
  · intro bo hb
    simp only [ingest_youtube]
    rw [dedupeInsert_bosses]
    rw [ensureGame_found _ hg]
    simp only []
    rw [ensureBoss_found _ hb]

/-- A populated concrete store, for the C9 witness. -/
def dbW9 : DB := ⟨[⟨0, "G", some "PC", none, none⟩],
  [⟨1, RawId.oidStr 0, "B", none, some "old", none⟩], [], [], 2⟩

/-- A bulk payload whose game fields differ from the stored ones. -/
def payloadW9 : BulkIngest := ⟨"G", some "PS5", some "https://img", some "new", []⟩

/-- A bulk boss item whose fields differ from the stored Boss. -/
def bossW9 : BulkBoss := ⟨"B", some "https://b", some "new", some "Hard", []⟩

/-- C9 witness: re-ingesting an existing game/boss pair with different
supplied fields leaves both collections unchanged and returns the stored
documents. -/
theorem c9_first_write_wins_witness :
    (ingest_bulk dbW9 payloadW9).2.1 = ⟨0, "G", some "PC", none, none⟩ ∧
    (ingest_bulk dbW9 payloadW9).1.games = dbW9.games ∧
    (bulkBossStep dbW9 (RawId.oidStr 0) bossW9).2 =
      ⟨1, RawId.oidStr 0, "B", none, some "old", none⟩ :=
  ⟨((c9_first_write_wins dbW9).1 payloadW9 ⟨0, "G", some "PC", none, none⟩ (by decide)).1,
   ((c9_first_write_wins dbW9).1 payloadW9 ⟨0, "G", some "PC", none, none⟩ (by decide)).2,
   ((c9_first_write_wins dbW9).2.1 (RawId.oidStr 0) bossW9
      ⟨1, RawId.oidStr 0, "B", none, some "old", none⟩ (by decide)).1⟩

@[simp] theorem approveIngest_queue (db : DB) (item : QueueItemDoc) :
    (approveIngest db item).queue = db.queue := by
  unfold approveIngest
  cases item.video_url with
  | none => simp
  | some vid =>
    by_cases h : vid = ""
    · simp [h]
    · simp [h]

theorem find?_setStatus {l : List QueueItemDoc} {oid : Nat} (st : String)
    (h : l.any (fun q => q.oid == oid) = true) :
    ∃ it : QueueItemDoc,
      (l.map (fun q => if q.oid == oid then { q with status := st } else q)).find?
          (fun q => q.oid == oid) = some it ∧ it.status = st := by
  induction l with
  | nil => simp at h
  | cons q qs ih =>
    by_cases hq : (q.oid == oid) = true
    · refine ⟨{ q with status := st }, ?_, rfl⟩
      simp only [List.map_cons]
      rw [if_pos hq]
      exact List.find?_cons_of_pos _ hq
    · have hqf : (q.oid == oid) = false := by
        revert hq
        cases q.oid == oid <;> simp
      have h2 : qs.any (fun x => x.oid == oid) = true := by
        simp only [List.any_cons, hqf, Bool.false_or] at h
        exact h
      obtain ⟨it, hit, hst⟩ := ih h2
      refine ⟨it, ?_, hst⟩
      simp only [List.map_cons]
      rw [if_neg hq]
      simp only [List.find?_cons, hqf]
      exact hit

@[simp] theorem setQueueStatus_queue (db : DB) (oid : Nat) (st : String) :
    (setQueueStatus db oid st).queue =
      db.queue.map (fun q => if q.oid == oid then { q with status := st } else q) := rfl

/-- A stored queue item already in the terminal `approved` status. -/
def qApproved : QueueItemDoc :=
  ⟨5, "youtube", "G", "B", none, [], none, none, none, none, none, "approved"⟩

/-- A store holding only `qApproved`. -/
def dbC2 : DB := ⟨[], [], [], [qApproved], 6⟩

/-- C2 counterexample: rejecting an already-`approved` queue item succeeds and
changes its status to `"rejected"` — the moderation operations do transition
out of a terminal state, contradicting the claim. -/
theorem c2_terminal_counterexample :
    qApproved.status = "approved" ∧
    (mod_reject dbC2 (RawId.oidStr 5)).toOption.map (fun r => r.2.status) =
      some "rejected" := by decide

/-- C2 amended: neither moderation operation guards terminal states — for any
stored queue item, whatever its current status (including `approved` and
`rejected`), reject sets its status to `"rejected"` and approve sets it to
`"approved"`, unconditionally. -/
theorem c2_terminal_amended (db : DB) (oid : Nat)
    (h : db.queue.any (fun q => q.oid == oid) = true) :
    (∃ p : DB × QueueItemDoc, mod_reject db (RawId.oidStr oid) = .ok p ∧
        p.2.status = "rejected") ∧
    (∃ p : DB × QueueItemDoc, mod_approve db (RawId.oidStr oid) = .ok p ∧
        p.2.status = "approved") := by
  constructor
  · obtain ⟨it, hit, hst⟩ := find?_setStatus "rejected" h
    refine ⟨(setQueueStatus db oid "rejected", it), ?_, hst⟩
    simp only [mod_reject, parseObjectId]
    rw [if_pos h, setQueueStatus_queue, hit]
  · have hex : ∃ item, db.queue.find? (fun q => q.oid == oid) = some item := by
      obtain ⟨x, hx, hpx⟩ := List.any_eq_true.mp h
      have : (db.queue.find? (fun q => q.oid == oid)).isSome := by
        rw [List.find?_isSome]
        exact ⟨x, hx, hpx⟩
      exact Option.isSome_iff_exists.mp this
    obtain ⟨item, hfind⟩ := hex
    have h3 : (approveIngest db item).queue.any (fun q => q.oid == oid) = true := by
      rw [approveIngest_queue]
      exact h
    obtain ⟨it, hit, hst⟩ := find?_setStatus "approved" h3
    refine ⟨(setQueueStatus (approveIngest db item) oid "approved", it), ?_, hst⟩
    simp only [mod_approve, parseObjectId]
    rw [hfind]
    simp only [setQueueStatus_queue]
    rw [hit]

/-- C2 witness: the amended behavior at the concrete store `dbC2`. -/
theorem c2_terminal_amended_witness :
    (∃ p : DB × QueueItemDoc, mod_reject dbC2 (RawId.oidStr 5) = .ok p ∧
        p.2.status = "rejected") ∧
    (∃ p : DB × QueueItemDoc, mod_approve dbC2 (RawId.oidStr 5) = .ok p ∧
        p.2.status = "approved") :=
  c2_terminal_amended dbC2 5 (by decide)

/-- A submission carrying an explicit non-default status. -/
def badItem : QueueItem :=
  ⟨"youtube", "G", "B", none, [], none, none, none, none, none, "approved"⟩

/-- C8 counterexample: `mod_submit` stores the request's `status` field as-is;
a submission carrying `status := "approved"` is stored with status
`"approved"`, not `"pending"`, refuting the claim for that input. -/
theorem c8_pending_counterexample :
    ((mod_submit DB.empty badItem).1.queue.map (fun q => q.status)) = ["approved"] ∧
    (mod_submit DB.empty badItem).2.status = "approved" := by decide

/-- C8 amended: every document `mod_submit` inserts carries exactly the status
of the submitted request — which pydantic defaults to `"pending"` only when
the client omits the field — so submissions with the default status, and only
those, are created `pending`. -/
theorem c8_pending_amended (db : DB) (item : QueueItem) :
    ∀ q ∈ (mod_submit db item).1.queue, q ∈ db.queue ∨ q.status = item.status := by
  intro q hq
  cases h : db.queue.find? (queueMatch item) with
  | some ex =>
    have heq : (mod_submit db item).1.queue = db.queue := by simp [mod_submit, h]
    rw [heq] at hq
    exact Or.inl hq
  | none =>
    have heq : (mod_submit db item).1.queue = db.queue ++ [(insertQueue db item).2] := by
      simp [mod_submit, h, insertQueue]
    rw [heq] at hq
    rcases List.mem_append.mp hq with h1 | h2
    · exact Or.inl h1
    · right
      rw [List.mem_singleton.mp h2]
      rfl

/-- C8 witness: the document inserted for the default-status `itemW` carries
`itemW`'s (pending) status. -/
theorem c8_pending_amended_witness :
    (mod_submit DB.empty itemW).2 ∈ DB.empty.queue ∨
      (mod_submit DB.empty itemW).2.status = itemW.status :=
  c8_pending_amended DB.empty itemW (mod_submit DB.empty itemW).2 (by decide)

/-- A bulk payload whose single strategy item declares a parseable but
non-existent `boss_id` (no Boss with oid 999 ever exists). -/
def payloadC4 : BulkIngest :=
  ⟨"G4", none, none, none,
    [⟨"B4", none, none, none, [⟨RawId.oidStr 999, "T4", [], none, none⟩]⟩]⟩

/-- C4 counterexample: `oidStr 999` parses but references no Boss, so it fails
identity validation as the claim defines it; the claim requires the item to be
relinked to the just-resolved Boss (oid 1), but the code inserts the strategy
with the dangling declared `boss_id` unchanged. -/
theorem c4_fallback_counterexample :
    ((ingest_bulk DB.empty payloadC4).1.strategies.map (fun s => s.boss_id)) =
      [RawId.oidStr 999] ∧
    ((ingest_bulk DB.empty payloadC4).2.2.map (fun b => b.oid)) = [1] ∧
    bossExists (ingest_bulk DB.empty payloadC4).1 999 = false := by decide

theorem bulk_fold_length (gid : RawId) (l : List BulkBoss) (acc : DB × List BossDoc) :
    ((l.foldl (fun (acc : DB × List BossDoc) b =>
        let p := bulkBossStep acc.1 gid b
        (p.1, acc.2 ++ [p.2])) acc).2).length = acc.2.length + l.length := by
  induction l generalizing acc with
  | nil => simp
  | cons b bs ih =>
    rw [List.foldl_cons, ih]
    show (acc.2 ++ [(bulkBossStep acc.1 gid b).2]).length + bs.length =
      acc.2.length + (b :: bs).length
    simp only [List.length_append, List.length_cons, List.length_nil]
    omega

/-- C4 amended: the bulk fallback fires exactly on parse failure — a strategy
item whose declared `boss_id` cannot be parsed as an ObjectId is inserted
relinked to the just-resolved Boss (skipped only on a video-dedupe hit against
that Boss), whereas an item whose `boss_id` parses is inserted as declared
even when the referenced Boss does not exist; the per-item step is total, so
the batch always processes every payload item (one resolved Boss each). -/
theorem c4_malformed_fallback :
    (∀ (db : DB) (boss : BossDoc) (s : StrategyCreate),
        parseObjectId s.boss_id = none →
        (∃ v, s.video_url = some v ∧ v ≠ "" ∧
            strategyDupCountPos db (RawId.oidStr boss.oid) v = true ∧
            bulkStrategyStep db boss s = db) ∨
          bulkStrategyStep db boss s =
            insertStrategy db { s with boss_id := RawId.oidStr boss.oid }) ∧
    (∀ (db : DB) (payload : BulkIngest),
        ((ingest_bulk db payload).2.2).length = payload.bosses.length) := by
  constructor
  · intro db boss s hp
    cases hv : s.video_url with
    | none =>
      refine Or.inr ?_
      unfold bulkStrategyStep
      rw [hp, hv]
    | some v =>
      by_cases hc : (v != "" && strategyDupCountPos db (RawId.oidStr boss.oid) v) = true
      · have hc2 := hc
        rw [Bool.and_eq_true] at hc2
        refine Or.inl ⟨v, rfl, ?_, hc2.2, ?_⟩
        · intro he
          rw [he] at hc2
          exact absurd hc2.1 (by decide)
        · unfold bulkStrategyStep
          rw [hp, hv]
          simp only []
          rw [if_pos hc]
      · refine Or.inr ?_
        unfold bulkStrategyStep
        rw [hp, hv]
        simp only []
        rw [if_neg hc]
  · intro db payload
    unfold ingest_bulk
    rw [bulk_fold_length]
    simp

/-- A resolved Boss document, for the C4 witness. -/
def bossW4 : BossDoc := ⟨1, RawId.oidStr 0, "B", none, none, none⟩

/-- A strategy item with a malformed declared `boss_id`, for the C4 witness. -/
def scW4 : StrategyCreate := ⟨RawId.other "bad", "T", [], none, none⟩

/-- C4 witness: the malformed-id fallback at concrete inputs. -/
theorem c4_malformed_fallback_witness :
    (∃ v, scW4.video_url = some v ∧ v ≠ "" ∧
        strategyDupCountPos DB.empty (RawId.oidStr bossW4.oid) v = true ∧
        bulkStrategyStep DB.empty bossW4 scW4 = DB.empty) ∨
      bulkStrategyStep DB.empty bossW4 scW4 =
        insertStrategy DB.empty { scW4 with boss_id := RawId.oidStr bossW4.oid } :=
  c4_malformed_fallback.1 DB.empty bossW4 scW4 (by decide)

theorem insertGame_mem (db : DB) (g : GameCreate) :
    (insertGame db g).2 ∈ (insertGame db g).1.games := by
  simp [insertGame]

theorem insertBoss_mem (db : DB) (b : BossCreate) :
    (insertBoss db b).2 ∈ (insertBoss db b).1.bosses := by
  simp [insertBoss]

theorem gameExists_congr {db db' : DB} (h : db'.games = db.games) (gid : Nat) :
    gameExists db' gid = gameExists db gid := by
  unfold gameExists
  rw [h]

theorem bossExists_congr {db db' : DB} (h : db'.bosses = db.bosses) (bid : Nat) :
    bossExists db' bid = bossExists db bid := by
  unfold bossExists
  rw [h]

theorem create_boss_ok_shape {db : DB} {bc : BossCreate} {db' : DB} {d : BossDoc}
    (hok : create_boss db bc = .ok (db', d)) :
    (∃ gid, parseObjectId bc.game_id = some gid ∧ gameExists db gid = true) ∧
    db' = (insertBoss db bc).1 := by
  rcases hp : parseObjectId bc.game_id with _ | gid
  · simp [create_boss, hp] at hok
  · by_cases hg : gameExists db gid = true
    · simp only [create_boss, hp, hg, if_true] at hok
      rw [Except.ok.injEq, Prod.mk.injEq] at hok
      exact ⟨⟨gid, rfl, hg⟩, hok.1.symm⟩
    · simp [create_boss, hp, hg] at hok

theorem create_strategy_ok_shape {db : DB} {sc : StrategyCreate} {db' : DB} {d : StrategyDoc}
    (hok : create_strategy db sc = .ok (db', d)) :
    (∃ bid, parseObjectId sc.boss_id = some bid ∧ bossExists db bid = true) ∧
    (db' = db ∨ db' = insertStrategy db sc) := by
  rcases hp : parseObjectId sc.boss_id with _ | bid
  · simp [create_strategy, hp] at hok
  · by_cases hb : bossExists db bid = true
    · refine ⟨⟨bid, rfl, hb⟩, ?_⟩
      rcases hv : sc.video_url with _ | v
      · simp only [create_strategy, hp, hb, hv, if_true] at hok
        rw [Except.ok.injEq, Prod.mk.injEq] at hok
        exact Or.inr hok.1.symm
      · by_cases he : (v == "") = true
        · simp only [create_strategy, hp, hb, hv, he, if_true] at hok
          rw [Except.ok.injEq, Prod.mk.injEq] at hok
          exact Or.inr hok.1.symm
        · rcases hf : findStrategyDup db sc.boss_id v with _ | ex
          · simp only [create_strategy, hp, hb, hv, he, hf, if_true, if_false,
              Bool.false_eq_true] at hok
            rw [Except.ok.injEq, Prod.mk.injEq] at hok
            exact Or.inr hok.1.symm
          · simp only [create_strategy, hp, hb, hv, he, hf, if_true, if_false,
              Bool.false_eq_true] at hok
            rw [Except.ok.injEq, Prod.mk.injEq] at hok
            exact Or.inl hok.1.symm
    · simp [create_strategy, hp, hb] at hok

theorem refIntact_ingest_youtube {db : DB} (data : YouTubeIngest)
    (h : refIntact db = true) : refIntact (ingest_youtube db data).1 = true := by
  simp only [ingest_youtube]
  set pg := ensureGameByTitle db data.game_title ⟨data.game_title, none, none, none⟩ with hpg
  set pb := ensureBoss pg.1 data.boss_name (RawId.oidStr pg.2.oid)
    ⟨RawId.oidStr pg.2.oid, data.boss_name, data.image, data.summary, data.difficulty⟩ with hpb
  have h1 : refIntact pg.1 = true := refIntact_ensureGame _ _ h
  have hgm : gameExists pg.1 pg.2.oid = true :=
    gameExists_of_mem (ensureGame_mem db data.game_title _)
  have h2 : refIntact pb.1 = true := by
    rw [hpb]
    exact refIntact_ensureBoss rfl hgm h1
  have hbm : bossExists pb.1 pb.2.oid = true :=
    bossExists_of_mem (by rw [hpb]; exact ensureBoss_mem pg.1 data.boss_name _ _)
  exact refIntact_dedupeInsert rfl hbm h2

theorem demoSeed_preserves {db : DB} {gid : Nat} (nm img sm diff : String)
    (hg : gameExists db gid = true) (h : refIntact db = true) :
    refIntact (demoSeedBoss db gid nm img sm diff) = true ∧
    gameExists (demoSeedBoss db gid nm img sm diff) gid = true := by
  unfold demoSeedBoss
  simp only []
  set p := insertBoss db ⟨.oidStr gid, nm, some img, some sm, some diff⟩ with hp
  have h1 : refIntact p.1 = true := by
    rw [hp]
    exact refIntact_insertBoss rfl hg h
  have hb1 : bossExists p.1 p.2.oid = true := by
    rw [hp]
    exact bossExists_of_mem (insertBoss_mem db _)
  have hg1 : gameExists p.1 gid = true := by
    rw [hp]
    exact gameExists_mono (insertBoss_le db _) hg
  split
  · exact ⟨h1, hg1⟩
  · refine ⟨refIntact_insertStrategy rfl hb1 h1, ?_⟩
    rw [gameExists_congr (insertStrategy_games _ _) gid]
    exact hg1

theorem refIntact_ingest_demo {db : DB} (h : refIntact db = true) :
    refIntact (ingest_demo db).1 = true := by
  unfold ingest_demo
  cases hf : findGameByTitle db "Elden Ring" with
  | some g => exact h
  | none =>
    simp only []
    set gc : GameCreate :=
      ⟨"Elden Ring", some "PC/PS5/Xbox",
        some "https://images.igdb.com/igdb/image/upload/t_cover_big/co4jni.jpg",
        some "Open-world action RPG by FromSoftware featuring challenging boss fights."⟩
    have h1 : refIntact (insertGame db gc).1 = true := refIntact_insertGame gc h
    have hg1 : gameExists (insertGame db gc).1 (insertGame db gc).2.oid = true :=
      gameExists_of_mem (insertGame_mem db gc)
    have s1 := demoSeed_preserves "Margit, the Fell Omen"
      "https://static.wikia.nocookie.net/eldenring/images/4/4b/Margit_the_Fell_Omen.jpg"
      "Gatekeeper of Stormveil Castle with punishing combos and holy daggers." "Hard" hg1 h1
    have s2 := demoSeed_preserves "Godrick the Grafted"
      "https://static.wikia.nocookie.net/eldenring/images/4/41/Godrick_the_Grafted.jpg"
      "Demigod who commands storm and grafted limbs." "Hard" s1.2 s1.1
    have s3 := demoSeed_preserves "Malenia, Blade of Miquella"
      "https://static.wikia.nocookie.net/eldenring/images/a/aa/Malenia_Blade_of_Miquella.jpg"
      "Infamous duel with lifesteal and Waterfowl Dance." "Legendary" s2.2 s2.1
    exact s3.1

theorem refIntact_approveIngest {db : DB} (item : QueueItemDoc)
    (h : refIntact db = true) : refIntact (approveIngest db item) = true := by
  unfold approveIngest
  simp only []
  set pg := ensureGameByTitle db item.game_title ⟨item.game_title, none, none, none⟩ with hpg
  set pb := ensureBoss pg.1 item.boss_name (RawId.oidStr pg.2.oid)
    ⟨RawId.oidStr pg.2.oid, item.boss_name, item.image, item.summary, item.difficulty⟩ with hpb
  have h1 : refIntact pg.1 = true := refIntact_ensureGame _ _ h
  have hgm : gameExists pg.1 pg.2.oid = true :=
    gameExists_of_mem (ensureGame_mem db item.game_title _)
  have h2 : refIntact pb.1 = true := by
    rw [hpb]
    exact refIntact_ensureBoss rfl hgm h1
  have hbm : bossExists pb.1 pb.2.oid = true :=
    bossExists_of_mem (by rw [hpb]; exact ensureBoss_mem pg.1 item.boss_name _ _)
  split
  · exact h2
  · split
    · exact h2
    · exact refIntact_dedupeInsert rfl hbm h2

theorem refIntact_mod_approve {db : DB} {iid : RawId} {db' : DB} {d : QueueItemDoc}
    (hok : mod_approve db iid = .ok (db', d)) (h : refIntact db = true) :
    refIntact db' = true := by
  rcases hp : parseObjectId iid with _ | oid
  · simp only [mod_approve, hp] at hok
    exact Except.noConfusion hok
  · cases hfind : db.queue.find? (fun q => q.oid == oid) with
    | none =>
      simp only [mod_approve, hp, hfind] at hok
      exact Except.noConfusion hok
    | some item =>
      cases hfin : (setQueueStatus (approveIngest db item) oid "approved").queue.find?
          (fun q => q.oid == oid) with
      | none =>
        simp only [mod_approve, hp, hfind, hfin] at hok
        exact Except.noConfusion hok
      | some it =>
        have hdb : db' = setQueueStatus (approveIngest db item) oid "approved" := by
          simp only [mod_approve, hp, hfind, hfin] at hok
          rw [Except.ok.injEq, Prod.mk.injEq] at hok
          exact hok.1.symm
        rw [hdb, refIntact_setQueueStatus]
        exact refIntact_approveIngest item h

theorem bulkStrategyStep_le (d : DB) (boss : BossDoc) (s : StrategyCreate) :
    DBLe d (bulkStrategyStep d boss s) :=
  ⟨fun g hg => by rw [bulkStrategyStep_games]; exact hg,
   fun b hb => by rw [bulkStrategyStep_bosses]; exact hb⟩

theorem refIntact_bulkStrategyStep {db0 d : DB} {boss : BossDoc} {s : StrategyCreate}
    (hS : ∀ bid, parseObjectId s.boss_id = some bid → bossExists db0 bid = true)
    (hle : DBLe db0 d) (hbm : bossExists d boss.oid = true)
    (h : refIntact d = true) : refIntact (bulkStrategyStep d boss s) = true := by
  cases hp : parseObjectId s.boss_id with
  | none =>
    simp only [bulkStrategyStep, hp]
    split
    · split
      · exact h
      · exact refIntact_insertStrategy rfl hbm h
    · exact refIntact_insertStrategy rfl hbm h
  | some bid =>
    have hb : bossExists d bid = true := bossExists_mono hle (hS bid hp)
    simp only [bulkStrategyStep, hp]
    split
    · split
      · exact h
      · exact refIntact_insertStrategy hp hb h
    · exact refIntact_insertStrategy hp hb h

theorem bulk_inner_fold {db0 : DB} {boss : BossDoc} (l : List StrategyCreate) (d : DB)
    (hS : ∀ s ∈ l, ∀ bid, parseObjectId s.boss_id = some bid → bossExists db0 bid = true)
    (hle : DBLe db0 d) (hbm : bossExists d boss.oid = true) (h : refIntact d = true) :
    refIntact (l.foldl (fun x s => bulkStrategyStep x boss s) d) = true ∧
    DBLe db0 (l.foldl (fun x s => bulkStrategyStep x boss s) d) := by
  have hinv := foldl_invariant
    (fun x : DB => refIntact x = true ∧ DBLe db0 x ∧ bossExists x boss.oid = true)
    (fun x s => bulkStrategyStep x boss s) l d ⟨h, hle, hbm⟩
    (fun x s hs hx =>
      ⟨refIntact_bulkStrategyStep (hS s hs) hx.2.1 hx.2.2 hx.1,
       hx.2.1.trans (bulkStrategyStep_le x boss s),
       (bossExists_congr (bulkStrategyStep_bosses x boss s) boss.oid).trans hx.2.2⟩)
  exact ⟨hinv.1, hinv.2.1⟩

theorem refIntact_bulkBossStep {db0 d : DB} {gidN : Nat} {b : BulkBoss}
    (hS : ∀ s ∈ b.strategies, ∀ bid,
        parseObjectId s.boss_id = some bid → bossExists db0 bid = true)
    (hle : DBLe db0 d) (hg : gameExists d gidN = true) (h : refIntact d = true) :
    refIntact (bulkBossStep d (RawId.oidStr gidN) b).1 = true ∧
    DBLe db0 (bulkBossStep d (RawId.oidStr gidN) b).1 := by
  unfold bulkBossStep
  simp only []
  set pb := ensureBoss d b.name (RawId.oidStr gidN)
    ⟨RawId.oidStr gidN, b.name, b.image, b.summary, b.difficulty⟩ with hpb
  have h1 : refIntact pb.1 = true := by
    rw [hpb]
    exact refIntact_ensureBoss rfl hg h
  have hbm : bossExists pb.1 pb.2.oid = true :=
    bossExists_of_mem (by rw [hpb]; exact ensureBoss_mem d b.name _ _)
  have hle1 : DBLe db0 pb.1 := by
    rw [hpb]
    exact hle.trans (ensureBoss_le d b.name _ _)
  exact bulk_inner_fold b.strategies pb.1 hS hle1 hbm h1

theorem refIntact_ingest_bulk {db : DB} (payload : BulkIngest)
    (hS : ∀ b ∈ payload.bosses, ∀ s ∈ b.strategies, ∀ bid,
        parseObjectId s.boss_id = some bid → bossExists db bid = true)
    (h : refIntact db = true) : refIntact (ingest_bulk db payload).1 = true := by
  unfold ingest_bulk
  simp only []
  set pg := ensureGameByTitle db payload.game_title
    ⟨payload.game_title, payload.platform, payload.cover_image, payload.description⟩ with hpg
  have h1 : refIntact pg.1 = true := refIntact_ensureGame _ _ h
  have hg1 : gameExists pg.1 pg.2.oid = true :=
    gameExists_of_mem (ensureGame_mem db payload.game_title _)
  have hle1 : DBLe db pg.1 := ensureGame_le db payload.game_title _
  have hinv := foldl_invariant
    (fun acc : DB × List BossDoc => refIntact acc.1 = true ∧ DBLe db acc.1 ∧
      gameExists acc.1 pg.2.oid = true)
    (fun (acc : DB × List BossDoc) b =>
      let p := bulkBossStep acc.1 (RawId.oidStr pg.2.oid) b
      (p.1, acc.2 ++ [p.2]))
    payload.bosses (pg.1, []) ⟨h1, hle1, hg1⟩
    (fun acc b hb hacc =>
      ⟨(refIntact_bulkBossStep (hS b hb) hacc.2.1 hacc.2.2 hacc.1).1,
       (refIntact_bulkBossStep (hS b hb) hacc.2.1 hacc.2.2 hacc.1).2,
       (gameExists_congr (bulkBossStep_games acc.1 (RawId.oidStr pg.2.oid) b)
          pg.2.oid).trans hacc.2.2⟩)
  exact hinv.1

/-- A bulk payload whose single strategy item declares a parseable `boss_id`
referencing no Boss (oid 999 never exists). -/
def payloadC3 : BulkIngest :=
  ⟨"G3", none, none, none,
    [⟨"B3", none, none, none, [⟨RawId.oidStr 999, "T3", [], none, none⟩]⟩]⟩

/-- C3 counterexample: starting from the empty (trivially intact) store, bulk
ingest writes a Strategy whose stored `boss_id` (`oidStr 999`) resolves to no
Boss at write time — the claimed invariant fails on the bulk-ingest path. -/
theorem c3_referential_counterexample :
    refIntact DB.empty = true ∧
    refIntact (ingest_bulk DB.empty payloadC3).1 = false ∧
    ((ingest_bulk DB.empty payloadC3).1.strategies.map (fun s => s.boss_id)) =
      [RawId.oidStr 999] ∧
    bossExists (ingest_bulk DB.empty payloadC3).1 999 = false := by decide

/-- C3 amended: on a referentially intact store, every write path preserves
referential integrity — direct Boss and Strategy creation, single-video
ingest, the demo seed and queue approval unconditionally, and bulk ingest
provided each per-item declared `boss_id` that parses references an existing
Boss (in particular whenever it is malformed, since then the fallback relinks
it); a parseable but dangling declared `boss_id` in bulk ingest is the one
write that can break the invariant. -/
theorem c3_referential_amended (db : DB) (h : refIntact db = true) :
    (∀ (bc : BossCreate) (db' : DB) (d : BossDoc),
        create_boss db bc = .ok (db', d) → refIntact db' = true) ∧
    (∀ (sc : StrategyCreate) (db' : DB) (d : StrategyDoc),
        create_strategy db sc = .ok (db', d) → refIntact db' = true) ∧
    (∀ data : YouTubeIngest, refIntact (ingest_youtube db data).1 = true) ∧
    refIntact (ingest_demo db).1 = true ∧
    (∀ (iid : RawId) (db' : DB) (d : QueueItemDoc),
        mod_approve db iid = .ok (db', d) → refIntact db' = true) ∧
    (∀ payload : BulkIngest,
        (∀ b ∈ payload.bosses, ∀ s ∈ b.strategies, ∀ bid,
            parseObjectId s.boss_id = some bid → bossExists db bid = true) →
        refIntact (ingest_bulk db payload).1 = true) := by
  refine ⟨?_, ?_, ?_, ?_, ?_, ?_⟩
  · intro bc db' d hok
    obtain ⟨⟨gid, hp, hg⟩, hdb⟩ := create_boss_ok_shape hok
    rw [hdb]
    exact refIntact_insertBoss hp hg h
  · intro sc db' d hok
    obtain ⟨⟨bid, hp, hb⟩, hdb⟩ := create_strategy_ok_shape hok
    rcases hdb with hdb | hdb
    · rw [hdb]
      exact h
    · rw [hdb]
      exact refIntact_insertStrategy hp hb h
  · intro data
    exact refIntact_ingest_youtube data h
  · exact refIntact_ingest_demo h
  · intro iid db' d hok
    exact refIntact_mod_approve hok h
  · intro payload hS
    exact refIntact_ingest_bulk payload hS h

/-- C3 witness: the amended preservation at concrete inputs — seeding the demo
catalog into the empty store keeps referential integrity, as does a concrete
boss-then-strategy creation chain. -/
theorem c3_referential_amended_witness :
    refIntact (ingest_demo DB.empty).1 = true ∧
    refIntact (ingest_youtube DB.empty
      ⟨"G", "B", "https://v", none, [], none, none, none, none⟩).1 = true :=
  ⟨(c3_referential_amended DB.empty (by decide)).2.2.2.1,
   (c3_referential_amended DB.empty (by decide)).2.2.1
     ⟨"G", "B", "https://v", none, [], none, none, none, none⟩⟩
